import Mathlib

/-!
Verification of the audio splitter (`src/audio_splitter.py`).

The program is a single linear procedure `split_audio_by_size` plus a CLI
wrapper `main`.  We shallowly embed it as a pure function over an
environment `Env` describing the external world (availability of the
`ffmpeg`/`ffprobe` executables, existence of the source file, exit codes
and outputs of the external tool invocations, and the initial contents of
the output directory).  Filenames are lists of characters, compared by the
code-point lexicographic order that Python's `sorted` uses on strings.
Python floats are modelled as rationals, with the two division sites made
explicit (Python raises `ZeroDivisionError` on float division by zero).
-/

namespace AudioSplitter

/-- The distinct ways `split_audio_by_size` can terminate abnormally.
`dependencyMissing`, `sourceNotFound`, `probeFailure` and `encodeFailure`
are the error kinds defined by the spec (RuntimeError / FileNotFoundError
raised on purpose).  `zeroDivision` models the uncaught Python
`ZeroDivisionError` from `bytes / 0.0`, and `attributeError` models the
uncaught Python `AttributeError` raised by `e.stderr` when the probe
output fails to parse (`e` is then a `ValueError`, which has no `stderr`
attribute). -/
inductive SplitError where
  | dependencyMissing
  | sourceNotFound
  | probeFailure
  | encodeFailure
  | zeroDivision
  | attributeError
  deriving DecidableEq, Repr

/-- The four error kinds defined by the spec's error taxonomy. -/
def definedKinds : List SplitError :=
  [SplitError.dependencyMissing, SplitError.sourceNotFound,
   SplitError.probeFailure, SplitError.encodeFailure]

/-- Observable side-effecting steps of `split_audio_by_size`, in the order
they are performed, used to state the ordering claims.  `fsProbeSource` is
the `source_path.is_file()` check (a filesystem probe of the source);
`runProbeTool` and `runEncodeTool` are invocations of the external
`ffprobe` / `ffmpeg` executables. -/
inductive Event where
  | fsProbeSource
  | mkdirOut
  | runProbeTool
  | runEncodeTool
  | statTemp
  | unlinkTemp
  | globDir
  deriving DecidableEq, Repr

/-- The external world as seen by one run of `split_audio_by_size`:
which executables resolve on PATH, whether the source path is a file,
the outcomes of the three subprocess invocations, and the initial
contents of the output directory (a list of filenames). -/
structure Env where
  ffmpeg : Bool
  ffprobe : Bool
  sourceExists : Bool
  srcStem : List Char
  probeOk : Bool
  probeParse : Option ℚ
  analyzeOk : Bool
  tempLeftOnFail : Bool
  tempSize : ℕ
  segmentOk : Bool
  chunksOnSuccess : List ℕ
  chunksOnFail : List ℕ
  preexisting : List (List Char)

/-- The character `"%d" % d` for a decimal digit `d`. -/
def digitChar (d : ℕ) : Char := Char.ofNat (48 + d)

/-- The three characters produced by Python's `"%03d" % n` for `n < 1000`. -/
def pad3 (n : ℕ) : List Char :=
  [digitChar (n / 100), digitChar (n / 10 % 10), digitChar (n % 10)]

/-- The filename `part_%03d.flac` of chunk number `i`. -/
def chunkName (i : ℕ) : List Char :=
  'p' :: 'a' :: 'r' :: 't' :: '_' :: (pad3 i ++ ['.', 'f', 'l', 'a', 'c'])

/-- The filename `temp_{stem}.flac` of the temporary calibration file. -/
def tempName (stem : List Char) : List Char :=
  't' :: 'e' :: 'm' :: 'p' :: '_' :: (stem ++ ['.', 'f', 'l', 'a', 'c'])

/-- Whether `p` is an initial segment of `f`. -/
def hasPre : List Char → List Char → Bool
  | [], _ => true
  | _ :: _, [] => false
  | a :: p, b :: f => decide (a = b) && hasPre p f

/-- Whether `s` is a final segment of `f`. -/
def hasSuf (s f : List Char) : Bool := hasPre s.reverse f.reverse

/-- The filenames matched by the glob pattern `part_*.flac` used at the
enumeration step: `part_` followed by anything followed by `.flac`. -/
def globMatch (f : List Char) : Bool :=
  hasPre ['p', 'a', 'r', 't', '_'] f && hasSuf ['.', 'f', 'l', 'a', 'c'] (f.drop 5)

/-- Python's `<=` on strings: code-point lexicographic comparison. -/
def strLeB : List Char → List Char → Bool
  | [], _ => true
  | _ :: _, [] => false
  | a :: s, b :: t => if a < b then true else if b < a then false else strLeB s t

/-- The propositional form of `strLeB`. -/
def strLe (s t : List Char) : Prop := strLeB s t = true

instance strLe.decidableRel : DecidableRel strLe := fun s t =>
  inferInstanceAs (Decidable (strLeB s t = true))

/-- Python's `sorted` on a list of strings. -/
def sortStr : List (List Char) → List (List Char) := List.insertionSort strLe

/-- Python's `sorted` on a list of naturals. -/
def sortNat : List ℕ → List ℕ := List.insertionSort (fun a b => a ≤ b)

/-- Lines 79-83 of the source: `chunk_size_bytes = chunk_size_mb * 1024 *
1024`, `segment_duration = math.floor(chunk_size_bytes /
bytes_per_second)`, and the fallback `segment_duration = 60` when the
floor is `<= 0`. -/
def computeSegmentDuration (chunkSizeMB ratio : ℚ) : ℤ :=
  let sd := ⌊chunkSizeMB * 1024 * 1024 / ratio⌋
  if sd ≤ 0 then 60 else sd

/-- What one run of `split_audio_by_size` produces: the Python-level
result (a returned list of filenames, or a raised exception), the ordered
observable steps it performed, the contents of the output directory at
return, and the segment duration it computed (when it got that far). -/
structure SplitOutcome where
  result : Except SplitError (List (List Char))
  events : List Event
  finalDir : List (List Char)
  segSeconds : Option ℤ
  deriving Repr

/-- Shallow embedding of `split_audio_by_size(input_file, chunk_size_mb)`
(lines 11-145 of the source), step by step:
dependency check (line 28), `is_file` check (line 32), `mkdir` with
`exist_ok=True` (line 37, non-destructive), duration probe with
`check=True` and `float(...)` parse (lines 41-52; on a `ValueError` the
handler itself crashes with `AttributeError` at `e.stderr`), the
calibration encode in a `try/finally` that unlinks the temporary file
(lines 57-92), the two division sites (lines 78-80), the `<= 0` fallback
(lines 82-83), the segmentation encode whose failure is caught and turned
into `return []` (lines 111-140), and the final sorted glob enumeration
(line 143). -/
def split_audio_by_size (env : Env) (chunkSizeMB : ℚ) : SplitOutcome :=
  if !(env.ffmpeg && env.ffprobe) then
    { result := .error .dependencyMissing, events := [],
      finalDir := env.preexisting, segSeconds := none }
  else if !env.sourceExists then
    { result := .error .sourceNotFound, events := [.fsProbeSource],
      finalDir := env.preexisting, segSeconds := none }
  else if !env.probeOk then
    { result := .error .probeFailure,
      events := [.fsProbeSource, .mkdirOut, .runProbeTool],
      finalDir := env.preexisting, segSeconds := none }
  else
    match env.probeParse with
    | none =>
      { result := .error .attributeError,
        events := [.fsProbeSource, .mkdirOut, .runProbeTool],
        finalDir := env.preexisting, segSeconds := none }
    | some totalDuration =>
      let tmp := tempName env.srcStem
      if !env.analyzeOk then
        { result := .error .encodeFailure,
          events := [.fsProbeSource, .mkdirOut, .runProbeTool, .runEncodeTool,
                     .unlinkTemp],
          finalDir := ((if env.tempLeftOnFail then env.preexisting ++ [tmp]
                        else env.preexisting).filter fun f => decide (f ≠ tmp)),
          segSeconds := none }
      else if totalDuration = 0 then
        { result := .error .zeroDivision,
          events := [.fsProbeSource, .mkdirOut, .runProbeTool, .runEncodeTool,
                     .statTemp, .unlinkTemp],
          finalDir := ((env.preexisting ++ [tmp]).filter fun f => decide (f ≠ tmp)),
          segSeconds := none }
      else
        let bytesPerSecond : ℚ := (env.tempSize : ℚ) / totalDuration
        if bytesPerSecond = 0 then
          { result := .error .zeroDivision,
            events := [.fsProbeSource, .mkdirOut, .runProbeTool, .runEncodeTool,
                       .statTemp, .unlinkTemp],
            finalDir := ((env.preexisting ++ [tmp]).filter fun f => decide (f ≠ tmp)),
            segSeconds := none }
        else
          let segmentDuration := computeSegmentDuration chunkSizeMB bytesPerSecond
          let cleaned := (env.preexisting ++ [tmp]).filter fun f => decide (f ≠ tmp)
          if env.segmentOk then
            let dirFinal := cleaned ++ env.chunksOnSuccess.map chunkName
            { result := .ok (sortStr (dirFinal.filter globMatch)),
              events := [.fsProbeSource, .mkdirOut, .runProbeTool, .runEncodeTool,
                         .statTemp, .unlinkTemp, .runEncodeTool, .globDir],
              finalDir := dirFinal, segSeconds := some segmentDuration }
          else
            let dirFinal := cleaned ++ env.chunksOnFail.map chunkName
            { result := .ok [],
              events := [.fsProbeSource, .mkdirOut, .runProbeTool, .runEncodeTool,
                         .statTemp, .unlinkTemp, .runEncodeTool],
              finalDir := dirFinal, segSeconds := some segmentDuration }

/-- How the process started by `main` (lines 148-176) terminates:
normal return (exit code 0), `sys.exit(1)` from the
`except (FileNotFoundError, RuntimeError)` handler, or an uncaught
exception (the interpreter prints a traceback and exits 1). -/
inductive MainOutcome where
  | exitOk (files : List (List Char))
  | exitErr
  | crash
  deriving DecidableEq, Repr

/-- Shallow embedding of `main`: call `split_audio_by_size`; the handler
catches only `FileNotFoundError` and `RuntimeError`, so `zeroDivision`
and `attributeError` escape as uncaught exceptions. -/
def main (env : Env) (size : ℚ) : MainOutcome :=
  match (split_audio_by_size env size).result with
  | .ok fs => .exitOk fs
  | .error .zeroDivision => .crash
  | .error .attributeError => .crash
  | .error _ => .exitErr

/-- The process exit code of a `main` run (an uncaught exception makes
the interpreter exit with code 1). -/
def mainExitCode (env : Env) (size : ℚ) : ℕ :=
  match main env size with
  | .exitOk _ => 0
  | .exitErr => 1
  | .crash => 1

/-! ### The lexicographic string order used by the final `sorted` call -/

theorem strLeB_refl (s : List Char) : strLeB s s = true := by
  induction s with
  | nil => rfl
  | cons a s ih => simp [strLeB, lt_irrefl, ih]

theorem strLeB_append_same (x s t : List Char) :
    strLeB (x ++ s) (x ++ t) = strLeB s t := by
  induction x with
  | nil => rfl
  | cons a x ih => simp [strLeB, lt_irrefl, ih]

theorem strLe_total (s t : List Char) : strLe s t ∨ strLe t s := by
  unfold strLe
  induction s generalizing t with
  | nil => left; rfl
  | cons a s ih =>
    cases t with
    | nil => right; rfl
    | cons b t =>
      rcases lt_trichotomy a b with h | h | h
      · left; simp [strLeB, h]
      · subst h
        rcases ih t with h2 | h2
        · left; simp [strLeB, lt_irrefl, h2]
        · right; simp [strLeB, lt_irrefl, h2]
      · right; simp [strLeB, h]

theorem strLe_trans : ∀ s t u : List Char, strLe s t → strLe t u → strLe s u := by
  intro s
  induction s with
  | nil => intro t u _ _; exact rfl
  | cons a s ih =>
    intro t u hst htu
    cases t with
    | nil => simp [strLe, strLeB] at hst
    | cons b t =>
      cases u with
      | nil => simp [strLe, strLeB] at htu
      | cons c u =>
        unfold strLe strLeB at hst htu ⊢
        by_cases hab : a < b
        · by_cases hbc : b < c
          · simp [lt_trans hab hbc]
          · by_cases hcb : c < b
            · simp [hbc, hcb] at htu
            · have hbc' : b = c := le_antisymm (not_lt.1 hcb) (not_lt.1 hbc)
              simp [hbc' ▸ hab]
        · by_cases hba : b < a
          · simp [hab, hba] at hst
          · have hab' : a = b := le_antisymm (not_lt.1 hba) (not_lt.1 hab)
            subst hab'
            by_cases hac : a < c
            · simp [hac]
            · by_cases hca : c < a
              · simp [hac, hca] at htu
              · have hac' : a = c := le_antisymm (not_lt.1 hca) (not_lt.1 hac)
                subst hac'
                simp [lt_irrefl] at hst htu ⊢
                exact ih t u hst htu

instance strLe.isTotal : IsTotal (List Char) strLe := ⟨strLe_total⟩

instance strLe.isTrans : IsTrans (List Char) strLe := ⟨strLe_trans⟩

/-! ### Zero-padded chunk names: lexicographic order agrees with numeric order -/

theorem digitChar_lt_iff :
    ∀ d, d < 10 → ∀ e, e < 10 → (digitChar d < digitChar e ↔ d < e) := by decide

theorem strLe_chunkName_iff {i j : ℕ} (hi : i < 1000) (hj : j < 1000) :
    strLe (chunkName i) (chunkName j) ↔ i ≤ j := by
  have h1i : i / 100 < 10 := by omega
  have h2i : i / 10 % 10 < 10 := by omega
  have h3i : i % 10 < 10 := by omega
  have h1j : j / 100 < 10 := by omega
  have h2j : j / 10 % 10 < 10 := by omega
  have h3j : j % 10 < 10 := by omega
  have e1 := digitChar_lt_iff _ h1i _ h1j
  have e1' := digitChar_lt_iff _ h1j _ h1i
  have e2 := digitChar_lt_iff _ h2i _ h2j
  have e2' := digitChar_lt_iff _ h2j _ h2i
  have e3 := digitChar_lt_iff _ h3i _ h3j
  have e3' := digitChar_lt_iff _ h3j _ h3i
  unfold strLe chunkName pad3
  simp only [List.cons_append, List.nil_append, strLeB, lt_self_iff_false, if_false]
  simp only [e1, e1', e2, e2', e3, e3']
  split_ifs <;> simp <;> omega

theorem sortStr_map_chunkName {l : List ℕ} (hl : ∀ i ∈ l, i < 1000) :
    sortStr (l.map chunkName) = (sortNat l).map chunkName := by
  unfold sortStr sortNat
  rw [← List.map_insertionSort (fun a b : ℕ => a ≤ b) strLe chunkName l]
  intro a ha b hb
  exact (strLe_chunkName_iff (hl a ha) (hl b hb)).symm

/-! ### Branch characterizations of `split_audio_by_size` -/

theorem tempName_ne_chunkName (stem : List Char) (i : ℕ) :
    tempName stem ≠ chunkName i := by
  intro h
  simp [tempName, chunkName] at h

theorem split_shape (env : Env) (c : ℚ) :
    (∃ e, (split_audio_by_size env c).result = Except.error e) ∨
    (env.segmentOk = true ∧
      (split_audio_by_size env c).result =
        Except.ok (sortStr ((split_audio_by_size env c).finalDir.filter globMatch))) ∨
    (env.segmentOk = false ∧ (split_audio_by_size env c).result = Except.ok []) := by
  cases hc1 : (env.ffmpeg && env.ffprobe) with
  | false => exact Or.inl ⟨SplitError.dependencyMissing, by simp [split_audio_by_size, hc1]⟩
  | true =>
  cases hc2 : env.sourceExists with
  | false => exact Or.inl ⟨SplitError.sourceNotFound, by simp [split_audio_by_size, hc1, hc2]⟩
  | true =>
  cases hc3 : env.probeOk with
  | false => exact Or.inl ⟨SplitError.probeFailure, by simp [split_audio_by_size, hc1, hc2, hc3]⟩
  | true =>
  cases hc4 : env.probeParse with
  | none => exact Or.inl ⟨SplitError.attributeError, by simp [split_audio_by_size, hc1, hc2, hc3, hc4]⟩
  | some d =>
  cases hc5 : env.analyzeOk with
  | false => exact Or.inl ⟨SplitError.encodeFailure, by simp [split_audio_by_size, hc1, hc2, hc3, hc4, hc5]⟩
  | true =>
  by_cases hc6 : d = 0
  · exact Or.inl ⟨SplitError.zeroDivision, by simp [split_audio_by_size, hc1, hc2, hc3, hc4, hc5, hc6]⟩
  by_cases hc7 : ((env.tempSize : ℚ) / d) = 0
  · exact Or.inl ⟨SplitError.zeroDivision, by simp [split_audio_by_size, hc1, hc2, hc3, hc4, hc5, hc6, hc7]⟩
  cases hc8 : env.segmentOk with
  | false =>
    exact Or.inr (Or.inr ⟨rfl,
      by simp [split_audio_by_size, hc1, hc2, hc3, hc4, hc5, hc6, hc7, hc8]⟩)
  | true =>
    exact Or.inr (Or.inl ⟨rfl,
      by simp [split_audio_by_size, hc1, hc2, hc3, hc4, hc5, hc6, hc7, hc8]⟩)

theorem split_finalDir_shape (env : Env) (c : ℚ)
    (htmp : tempName env.srcStem ∉ env.preexisting) :
    env.preexisting ⊆ (split_audio_by_size env c).finalDir ∧
    tempName env.srcStem ∉ (split_audio_by_size env c).finalDir := by
  have hsub : ∀ extra : List (List Char),
      env.preexisting ⊆
        ((env.preexisting ++ [tempName env.srcStem]).filter
          fun f => decide (f ≠ tempName env.srcStem)) ++ extra := by
    intro extra f hf
    have hne : f ≠ tempName env.srcStem := fun h => htmp (h ▸ hf)
    simp [List.mem_filter, List.mem_append, hf, hne]
  have hnotin : ∀ extra : List ℕ,
      tempName env.srcStem ∉
        (((env.preexisting ++ [tempName env.srcStem]).filter
          fun f => decide (f ≠ tempName env.srcStem)) ++ extra.map chunkName) := by
    intro extra h
    rcases List.mem_append.1 h with h | h
    · exact (of_decide_eq_true (List.mem_filter.1 h).2) rfl
    · rcases List.mem_map.1 h with ⟨i, _, hi⟩
      exact tempName_ne_chunkName env.srcStem i hi.symm
  cases hc1 : (env.ffmpeg && env.ffprobe) with
  | false =>
    constructor
    · intro f hf
      simpa [split_audio_by_size, hc1] using hf
    · intro h
      apply htmp
      simpa [split_audio_by_size, hc1] using h
  | true =>
  cases hc2 : env.sourceExists with
  | false =>
    constructor
    · intro f hf
      simpa [split_audio_by_size, hc1, hc2] using hf
    · intro h
      apply htmp
      simpa [split_audio_by_size, hc1, hc2] using h
  | true =>
  cases hc3 : env.probeOk with
  | false =>
    constructor
    · intro f hf
      simpa [split_audio_by_size, hc1, hc2, hc3] using hf
    · intro h
      apply htmp
      simpa [split_audio_by_size, hc1, hc2, hc3] using h
  | true =>
  cases hc4 : env.probeParse with
  | none =>
    constructor
    · intro f hf
      simpa [split_audio_by_size, hc1, hc2, hc3, hc4] using hf
    · intro h
      apply htmp
      simpa [split_audio_by_size, hc1, hc2, hc3, hc4] using h
  | some d =>
  cases hc5 : env.analyzeOk with
  | false =>
    cases hc5' : env.tempLeftOnFail with
    | false =>
      refine ⟨?_, ?_⟩ <;>
        simp only [split_audio_by_size, hc1, hc2, hc3, hc4, hc5, hc5', Bool.not_true,
          Bool.not_false, if_true, if_false, ite_true, ite_false]
      · intro f hf
        have hne : f ≠ tempName env.srcStem := fun h => htmp (h ▸ hf)
        simp [List.mem_filter, hf, hne]
      · intro h
        exact (of_decide_eq_true (List.mem_filter.1 h).2) rfl
    | true =>
      refine ⟨?_, ?_⟩ <;>
        simp only [split_audio_by_size, hc1, hc2, hc3, hc4, hc5, hc5', Bool.not_true,
          Bool.not_false, if_true, if_false, ite_true, ite_false]
      · intro f hf
        have hne : f ≠ tempName env.srcStem := fun h => htmp (h ▸ hf)
        simp [List.mem_filter, List.mem_append, hf, hne]
      · intro h
        exact (of_decide_eq_true (List.mem_filter.1 h).2) rfl
  | true =>
  by_cases hc6 : d = 0
  · refine ⟨?_, ?_⟩ <;>
      simp only [split_audio_by_size, hc1, hc2, hc3, hc4, hc5, hc6, Bool.not_true,
        Bool.not_false, if_true, if_false, ite_true, ite_false]
    · intro f hf
      have hne : f ≠ tempName env.srcStem := fun h => htmp (h ▸ hf)
      simp [List.mem_filter, List.mem_append, hf, hne]
    · intro h
      exact (of_decide_eq_true (List.mem_filter.1 h).2) rfl
  by_cases hc7 : ((env.tempSize : ℚ) / d) = 0
  · refine ⟨?_, ?_⟩ <;>
      simp only [split_audio_by_size, hc1, hc2, hc3, hc4, hc5, hc6, hc7, Bool.not_true,
        Bool.not_false, if_true, if_false, ite_true, ite_false]
    · intro f hf
      have hne : f ≠ tempName env.srcStem := fun h => htmp (h ▸ hf)
      simp [List.mem_filter, List.mem_append, hf, hne]
    · intro h
      exact (of_decide_eq_true (List.mem_filter.1 h).2) rfl
  cases hc8 : env.segmentOk with
  | false =>
    constructor
    · have := hsub (env.chunksOnFail.map chunkName)
      simpa [split_audio_by_size, hc1, hc2, hc3, hc4, hc5, hc6, hc7, hc8] using this
    · have := hnotin env.chunksOnFail
      simpa [split_audio_by_size, hc1, hc2, hc3, hc4, hc5, hc6, hc7, hc8] using this
  | true =>
    constructor
    · have := hsub (env.chunksOnSuccess.map chunkName)
      simpa [split_audio_by_size, hc1, hc2, hc3, hc4, hc5, hc6, hc7, hc8] using this
    · have := hnotin env.chunksOnSuccess
      simpa [split_audio_by_size, hc1, hc2, hc3, hc4, hc5, hc6, hc7, hc8] using this

theorem split_segfail_eval (env : Env) (c d : ℚ)
    (hff : env.ffmpeg = true) (hfp : env.ffprobe = true)
    (hsrc : env.sourceExists = true) (hpo : env.probeOk = true)
    (hpp : env.probeParse = some d) (hd : d ≠ 0)
    (han : env.analyzeOk = true) (hbps : ((env.tempSize : ℚ) / d) ≠ 0)
    (hseg : env.segmentOk = false) :
    (split_audio_by_size env c).result = Except.ok [] ∧
    (split_audio_by_size env c).finalDir =
      ((env.preexisting ++ [tempName env.srcStem]).filter
        fun f => decide (f ≠ tempName env.srcStem)) ++
        env.chunksOnFail.map chunkName := by
  constructor <;>
    simp [split_audio_by_size, hff, hfp, hsrc, hpo, hpp, hd, han, hbps, hseg]

theorem split_success_eval (env : Env) (c d : ℚ)
    (hff : env.ffmpeg = true) (hfp : env.ffprobe = true)
    (hsrc : env.sourceExists = true) (hpo : env.probeOk = true)
    (hpp : env.probeParse = some d) (hd : d ≠ 0)
    (han : env.analyzeOk = true) (hbps : ((env.tempSize : ℚ) / d) ≠ 0)
    (hseg : env.segmentOk = true) :
    (split_audio_by_size env c).result =
      Except.ok (sortStr ((((env.preexisting ++ [tempName env.srcStem]).filter
        fun f => decide (f ≠ tempName env.srcStem)) ++
        env.chunksOnSuccess.map chunkName).filter globMatch)) ∧
    (split_audio_by_size env c).finalDir =
      ((env.preexisting ++ [tempName env.srcStem]).filter
        fun f => decide (f ≠ tempName env.srcStem)) ++
        env.chunksOnSuccess.map chunkName := by
  constructor <;>
    simp [split_audio_by_size, hff, hfp, hsrc, hpo, hpp, hd, han, hbps, hseg]

/-! ### Concrete runs used as witnesses and counterexamples -/

/-- A run in which every stage up to segmentation succeeds (duration 100 s,
calibration file of 3,200,000 bytes, so ratio 32,000 bytes/s) and the
segmentation encode exits non-zero after writing one partial chunk. -/
def envSegFail : Env :=
  { ffmpeg := true, ffprobe := true, sourceExists := true, srcStem := ['x'],
    probeOk := true, probeParse := some 100, analyzeOk := true,
    tempLeftOnFail := false, tempSize := 3200000, segmentOk := false,
    chunksOnSuccess := [], chunksOnFail := [0], preexisting := [] }

/-- A fully successful run producing chunks 0-3, with one chunk file left
over from a previous run and one unrelated file already in the output
directory. -/
def envOkRun : Env :=
  { ffmpeg := true, ffprobe := true, sourceExists := true, srcStem := ['x'],
    probeOk := true, probeParse := some 100, analyzeOk := true,
    tempLeftOnFail := false, tempSize := 3200000, segmentOk := true,
    chunksOnSuccess := [0, 1, 2, 3], chunksOnFail := [],
    preexisting := [chunkName 7, ['n', 'o', 't', 'e', 's', '.', 't', 'x', 't']] }

/-- A run with `ffmpeg` missing from the PATH. -/
def envNoFfmpeg : Env :=
  { ffmpeg := false, ffprobe := true, sourceExists := true, srcStem := ['x'],
    probeOk := true, probeParse := some 100, analyzeOk := true,
    tempLeftOnFail := false, tempSize := 3200000, segmentOk := true,
    chunksOnSuccess := [], chunksOnFail := [], preexisting := [] }

/-- A run on a source path that is not a file. -/
def envNoSource : Env := { envNoFfmpeg with ffmpeg := true, sourceExists := false }

/-- A run whose duration probe exits non-zero. -/
def envProbeExit : Env := { envNoFfmpeg with ffmpeg := true, probeOk := false }

/-- A run whose duration probe exits 0 but prints unparsable output. -/
def envProbeBadOutput : Env := { envNoFfmpeg with ffmpeg := true, probeParse := none }

/-- A run whose duration probe parses as exactly 0.0 seconds. -/
def envZeroDuration : Env := { envNoFfmpeg with ffmpeg := true, probeParse := some 0 }

/-! ### The claims -/

/-- C1 counterexample: with every earlier stage succeeding and the
segmentation encode exiting non-zero, `split_audio_by_size` returns the
empty list — no error kind propagates to the caller. -/
theorem seg_fail_returns_empty_list :
    envSegFail.segmentOk = false ∧
    (split_audio_by_size envSegFail 1).result = Except.ok [] :=
  ⟨rfl, (split_segfail_eval envSegFail 1 100 rfl rfl rfl rfl rfl (by norm_num)
    rfl (by norm_num [envSegFail]) rfl).1⟩

/-- C1 (amended): if the final segmentation pass exits non-zero, the
encode-failure error raised internally is caught inside
`split_audio_by_size`, which prints the error and returns an empty list
to the caller instead of propagating any error. -/
theorem seg_encode_failure_caught (env : Env) (c d : ℚ)
    (hff : env.ffmpeg = true) (hfp : env.ffprobe = true)
    (hsrc : env.sourceExists = true) (hpo : env.probeOk = true)
    (hpp : env.probeParse = some d) (hd : d ≠ 0)
    (han : env.analyzeOk = true) (hbps : ((env.tempSize : ℚ) / d) ≠ 0)
    (hseg : env.segmentOk = false) :
    (split_audio_by_size env c).result = Except.ok [] := by
  simp [split_audio_by_size, hff, hfp, hsrc, hpo, hpp, hd, han, hbps, hseg]

/-- Witness for the amended C1 at the concrete failing-segmentation run. -/
theorem seg_encode_failure_caught_witness :
    (split_audio_by_size envSegFail 1).result = Except.ok [] :=
  seg_encode_failure_caught envSegFail 1 100 rfl rfl rfl rfl rfl
    (by norm_num) rfl (by norm_num [envSegFail]) rfl

/-- C2 counterexample: on segmentation failure `split_audio_by_size`
returns an empty non-error result even though a matching partial chunk
file is on disk. -/
theorem seg_fail_empty_nonerror_result :
    (split_audio_by_size envSegFail 1).result = Except.ok [] ∧
    (split_audio_by_size envSegFail 1).finalDir.filter globMatch = [chunkName 0] := by
  have h := split_segfail_eval envSegFail 1 100 rfl rfl rfl rfl rfl (by norm_num)
    rfl (by norm_num [envSegFail]) rfl
  refine ⟨h.1, ?_⟩
  rw [h.2]
  rfl

/-- C2 (amended): `split_audio_by_size` either raises or returns an
ordered list of chunk paths that all exist in the output directory at
return; the returned list is empty only when the segmentation stage
failed or no file matched the chunk pattern. -/
theorem split_ok_result_spec (env : Env) (c : ℚ) (l : List (List Char))
    (h : (split_audio_by_size env c).result = Except.ok l) :
    l.Sorted strLe ∧ l ⊆ (split_audio_by_size env c).finalDir ∧
    (l = [] → env.segmentOk = false ∨
      (split_audio_by_size env c).finalDir.filter globMatch = []) := by
  rcases split_shape env c with ⟨e, he⟩ | ⟨hseg, hres⟩ | ⟨hseg, hres⟩
  · rw [h] at he; exact absurd he (by simp)
  · rw [h] at hres
    injection hres with hl
    refine ⟨?_, ?_, ?_⟩
    · rw [hl]; exact List.sorted_insertionSort strLe _
    · intro f hf
      rw [hl] at hf
      have hmem := (List.perm_insertionSort strLe _).subset hf
      exact List.filter_subset' _ hmem
    · intro hnil
      right
      rw [hl] at hnil
      have hperm : (sortStr ((split_audio_by_size env c).finalDir.filter
          globMatch)).Perm ((split_audio_by_size env c).finalDir.filter globMatch) :=
        List.perm_insertionSort strLe _
      rw [hnil] at hperm
      exact hperm.symm.eq_nil
  · rw [h] at hres
    injection hres with hl
    exact ⟨by simp [hl], by simp [hl], fun _ => Or.inl hseg⟩

/-- Witness for the amended C2 at a concrete successful run. -/
theorem split_ok_result_spec_witness :
    [chunkName 0, chunkName 1, chunkName 2, chunkName 3,
      chunkName 7].Sorted strLe ∧
    [chunkName 0, chunkName 1, chunkName 2, chunkName 3, chunkName 7] ⊆
      (split_audio_by_size envOkRun 1).finalDir ∧
    ([chunkName 0, chunkName 1, chunkName 2, chunkName 3, chunkName 7] = [] →
      envOkRun.segmentOk = false ∨
      (split_audio_by_size envOkRun 1).finalDir.filter globMatch = []) :=
  split_ok_result_spec envOkRun 1
    [chunkName 0, chunkName 1, chunkName 2, chunkName 3, chunkName 7]
    (by
      rw [(split_success_eval envOkRun 1 100 rfl rfl rfl rfl rfl (by norm_num)
        rfl (by norm_num [envOkRun]) rfl).1]
      rfl)

/-- C3 counterexample: on segmentation-stage failure the CLI exits with
code 0, not 1. -/
theorem seg_fail_exit_code_zero :
    envSegFail.segmentOk = false ∧ mainExitCode envSegFail 1 = 0 := by
  have h := split_segfail_eval envSegFail 1 100 rfl rfl rfl rfl rfl (by norm_num)
    rfl (by norm_num [envSegFail]) rfl
  exact ⟨rfl, by simp [mainExitCode, main, h.1]⟩

/-- C3 (amended): the CLI exits 0 when `split_audio_by_size` returns a
list — which includes the segmentation-failure case, caught inside
`split` — and exits 1 whenever `split_audio_by_size` raises. -/
theorem main_exit_code_spec (env : Env) (c : ℚ) :
    (∀ e, (split_audio_by_size env c).result = Except.error e →
      mainExitCode env c = 1) ∧
    (∀ l, (split_audio_by_size env c).result = Except.ok l →
      mainExitCode env c = 0) := by
  constructor
  · intro e he
    cases e <;> simp [mainExitCode, main, he]
  · intro l hl
    simp [mainExitCode, main, hl]

/-- Witness for the amended C3: a run on a missing source exits 1. -/
theorem main_exit_code_spec_witness : mainExitCode envNoSource 20 = 1 :=
  (main_exit_code_spec envNoSource 20).1 SplitError.sourceNotFound rfl

/-- C4: for every positive chunk size and calibration ratio the computed
segment duration equals `floor(chunk_size_mb * 1024 * 1024 / ratio)` with
the fixed default 60 substituted when that floor is `≤ 0`, hence it is
always a positive integer; in particular a 1 MB chunk at 32,000 bytes/s
gives `floor(1048576 / 32000) = 32`. -/
theorem segment_duration_spec (c r : ℚ) (_hc : 0 < c) (_hr : 0 < r) :
    computeSegmentDuration c r =
      (if ⌊c * 1024 * 1024 / r⌋ ≤ 0 then 60 else ⌊c * 1024 * 1024 / r⌋) ∧
    0 < computeSegmentDuration c r ∧
    computeSegmentDuration 1 32000 = 32 := by
  refine ⟨rfl, ?_, ?_⟩
  · by_cases h : ⌊c * 1024 * 1024 / r⌋ ≤ 0
    · simp [computeSegmentDuration, h]
    · simp [computeSegmentDuration, h]
      omega
  · have hfl : ⌊(1 : ℚ) * 1024 * 1024 / 32000⌋ = 32 := by
      rw [Int.floor_eq_iff]
      norm_num
    norm_num [computeSegmentDuration, hfl]

/-- Witness for C4 at chunk size 1 MB and ratio 32,000 bytes/s. -/
theorem segment_duration_spec_witness :
    computeSegmentDuration 1 32000 =
      (if ⌊(1 : ℚ) * 1024 * 1024 / 32000⌋ ≤ 0 then 60
       else ⌊(1 : ℚ) * 1024 * 1024 / 32000⌋) ∧
    0 < computeSegmentDuration 1 32000 ∧
    computeSegmentDuration 1 32000 = 32 :=
  segment_duration_spec 1 32000 (by norm_num) (by norm_num)

/-- C5: the temporary calibration file is removed before
`split_audio_by_size` returns, on every path — it is never in the output
directory at return. -/
theorem temp_file_never_persists (env : Env) (c : ℚ)
    (htmp : tempName env.srcStem ∉ env.preexisting) :
    tempName env.srcStem ∉ (split_audio_by_size env c).finalDir :=
  (split_finalDir_shape env c htmp).2

/-- Witness for C5 at the spec's scenario: segmentation forced to fail,
the calibration temp file is absent at return. -/
theorem temp_file_never_persists_witness :
    tempName envSegFail.srcStem ∉ (split_audio_by_size envSegFail 1).finalDir :=
  temp_file_never_persists envSegFail 1 (by decide)

/-- C6: if the executables are absent, split fails with dependency-missing
before any filesystem probing of the source; if the source is absent,
split fails with source-not-found before any external tool is invoked. -/
theorem precondition_check_order (env : Env) (c : ℚ) :
    ((env.ffmpeg = false ∨ env.ffprobe = false) →
      (split_audio_by_size env c).result =
        Except.error SplitError.dependencyMissing ∧
      Event.fsProbeSource ∉ (split_audio_by_size env c).events) ∧
    (env.ffmpeg = true → env.ffprobe = true → env.sourceExists = false →
      (split_audio_by_size env c).result =
        Except.error SplitError.sourceNotFound ∧
      Event.runProbeTool ∉ (split_audio_by_size env c).events ∧
      Event.runEncodeTool ∉ (split_audio_by_size env c).events) := by
  constructor
  · intro h
    have hdep : (env.ffmpeg && env.ffprobe) = false := by
      rcases h with h | h <;> simp [h]
    constructor <;> simp [split_audio_by_size, hdep]
  · intro h1 h2 h3
    refine ⟨?_, ?_, ?_⟩ <;> simp [split_audio_by_size, h1, h2, h3]

/-- Witness for C6 with `ffmpeg` absent. -/
theorem precondition_check_order_witness :
    (split_audio_by_size envNoFfmpeg 20).result =
      Except.error SplitError.dependencyMissing ∧
    Event.fsProbeSource ∉ (split_audio_by_size envNoFfmpeg 20).events :=
  (precondition_check_order envNoFfmpeg 20).1 (Or.inl rfl)

/-- C7 (code bug): on a non-zero probe exit split does fail with the
probe-failure error, but when the probe output fails to parse, the
`except` handler itself crashes: `e` is a `ValueError` and `e.stderr`
raises `AttributeError`, so the documented probe-failure RuntimeError is
never raised. -/
theorem probe_parse_handler_bug :
    (split_audio_by_size envProbeBadOutput 20).result =
      Except.error SplitError.attributeError ∧
    SplitError.attributeError ∉ definedKinds ∧
    main envProbeBadOutput 20 = MainOutcome.crash ∧
    (split_audio_by_size envProbeExit 20).result =
      Except.error SplitError.probeFailure :=
  ⟨rfl, by decide, rfl, rfl⟩

/-- C8: for chunk indices below 1000 the fixed-width zero-padded names
sort lexicographically exactly as their indices sort numerically, and a
successful run whose matching files are those chunks returns them in
ascending numeric order. -/
theorem chunk_sort_order (idxs : List ℕ) (hidx : ∀ i ∈ idxs, i < 1000) :
    sortStr (idxs.map chunkName) = (sortNat idxs).map chunkName ∧
    (sortNat idxs).Sorted (fun a b => a ≤ b) ∧
    (∀ env c l, env.segmentOk = true →
      (split_audio_by_size env c).result = Except.ok l →
      (split_audio_by_size env c).finalDir.filter globMatch = idxs.map chunkName →
      l = (sortNat idxs).map chunkName) := by
  refine ⟨sortStr_map_chunkName hidx, List.sorted_insertionSort _ _, ?_⟩
  intro env c l hseg h hglob
  rcases split_shape env c with ⟨e, he⟩ | ⟨_, hres⟩ | ⟨hseg', _⟩
  · rw [h] at he; exact absurd he (by simp)
  · rw [h] at hres
    injection hres with hl
    rw [hl, hglob, sortStr_map_chunkName hidx]
  · rw [hseg] at hseg'; simp at hseg'

/-- Witness for C8 on the index list `[2, 0, 1]`. -/
theorem chunk_sort_order_witness :
    sortStr ([2, 0, 1].map chunkName) = (sortNat [2, 0, 1]).map chunkName :=
  (chunk_sort_order [2, 0, 1] (by decide)).1

/-- C9: a probe output parsing as exactly 0.0 makes the calibration-ratio
computation divide by zero: split raises `ZeroDivisionError`, which is
none of the defined error kinds, never computes a segment duration (so
the 60-second fallback is not applied), and crashes the CLI handler. -/
theorem zero_duration_divides_by_zero (env : Env) (c : ℚ)
    (hff : env.ffmpeg = true) (hfp : env.ffprobe = true)
    (hsrc : env.sourceExists = true) (hpo : env.probeOk = true)
    (hpp : env.probeParse = some 0) (han : env.analyzeOk = true) :
    (split_audio_by_size env c).result = Except.error SplitError.zeroDivision ∧
    SplitError.zeroDivision ∉ definedKinds ∧
    (split_audio_by_size env c).segSeconds = none ∧
    main env c = MainOutcome.crash := by
  have h1 : (split_audio_by_size env c).result =
      Except.error SplitError.zeroDivision := by
    simp [split_audio_by_size, hff, hfp, hsrc, hpo, hpp, han]
  refine ⟨h1, by decide, ?_, ?_⟩
  · simp [split_audio_by_size, hff, hfp, hsrc, hpo, hpp, han]
  · simp [main, h1]

/-- Witness for C9 at the concrete zero-duration run. -/
theorem zero_duration_divides_by_zero_witness :
    (split_audio_by_size envZeroDuration 20).result =
      Except.error SplitError.zeroDivision ∧
    SplitError.zeroDivision ∉ definedKinds ∧
    (split_audio_by_size envZeroDuration 20).segSeconds = none ∧
    main envZeroDuration 20 = MainOutcome.crash :=
  zero_duration_divides_by_zero envZeroDuration 20 rfl rfl rfl rfl rfl rfl

/-- C10: split never clears the existing output directory, and on a
successful run the returned list is exactly the lexicographically sorted
files matching `part_*.flac` in the directory at enumeration time, so
matching chunk files left over from a previous run are included. -/
theorem leftover_chunks_included (env : Env) (c : ℚ)
    (htmp : tempName env.srcStem ∉ env.preexisting) :
    env.preexisting ⊆ (split_audio_by_size env c).finalDir ∧
    (env.segmentOk = true → ∀ l,
      (split_audio_by_size env c).result = Except.ok l →
      l = sortStr ((split_audio_by_size env c).finalDir.filter globMatch) ∧
      env.preexisting.filter globMatch ⊆ l) := by
  refine ⟨(split_finalDir_shape env c htmp).1, ?_⟩
  intro hseg l h
  rcases split_shape env c with ⟨e, he⟩ | ⟨_, hres⟩ | ⟨hseg', _⟩
  · rw [h] at he; exact absurd he (by simp)
  · rw [h] at hres
    injection hres with hl
    refine ⟨hl, ?_⟩
    intro f hf
    rw [hl]
    have h1 : f ∈ env.preexisting := List.mem_of_mem_filter hf
    have h2 : f ∈ (split_audio_by_size env c).finalDir :=
      (split_finalDir_shape env c htmp).1 h1
    have h3 : globMatch f = true := List.of_mem_filter hf
    have h4 : f ∈ (split_audio_by_size env c).finalDir.filter globMatch :=
      List.mem_filter.2 ⟨h2, h3⟩
    exact (List.perm_insertionSort strLe _).symm.subset h4
  · rw [hseg] at hseg'; simp at hseg'

/-- Witness for C10 at the run with a leftover chunk file. -/
theorem leftover_chunks_included_witness :
    envOkRun.preexisting ⊆ (split_audio_by_size envOkRun 1).finalDir ∧
    ([chunkName 0, chunkName 1, chunkName 2, chunkName 3, chunkName 7] =
      sortStr ((split_audio_by_size envOkRun 1).finalDir.filter globMatch) ∧
     envOkRun.preexisting.filter globMatch ⊆
      [chunkName 0, chunkName 1, chunkName 2, chunkName 3, chunkName 7]) :=
  ⟨(leftover_chunks_included envOkRun 1 (by decide)).1,
   (leftover_chunks_included envOkRun 1 (by decide)).2 rfl
    [chunkName 0, chunkName 1, chunkName 2, chunkName 3, chunkName 7]
    (by
      rw [(split_success_eval envOkRun 1 100 rfl rfl rfl rfl rfl (by norm_num)
        rfl (by norm_num [envOkRun]) rfl).1]
      rfl)⟩

end AudioSplitter
